import Mathlib

/-!
Shallow embedding of V8Simple.cpp, the C++ bridge layer between a host
application and an embedded V8 scripting engine.  The embedding models:

- the engine value space (v8::Local values) as the inductive `V8Value`,
  with the classification predicates of the v8 embedding API;
- the host boundary value model (V8Simple::Value and its subclasses) as
  the inductive `Value`;
- exception translation (`Context::Throw`, `Context::HandleScriptException`,
  `Context::FromJust`) over an explicit model of a pending v8::TryCatch;
- the marshaling engine (`Context::Wrap`, `Context::Unwrap`,
  `Context::UnwrapVector`);
- the public facade operations (Context::Evaluate, Object::Get and friends,
  Array and Function operations) in oracle-passing style: each operation
  takes the result of its underlying engine call as an argument, `none`
  standing for an empty Maybe result, which the source translates into a
  ScriptException via `Context::Throw`;
- the engine property interface (v8::Object::GetPropertyNames, Has) and
  the engine array element interface, needed by the property and indexing
  claims;
- the host-owned byte buffer model of V8Simple::String.

Engine behavior that the bridge only forwards (script execution itself) is
left as an oracle argument; engine primitives whose documented semantics a
claim depends on (property enumeration, array indexing) are modelled from
the v8 embedding interface and marked as such in their doc comments.
-/

/-- Model of a v8 engine value (v8::Local of v8::Value) as seen through the
classification predicates that Context::Wrap tests.  Handles of heap
objects (plain objects, arrays, functions) are natural numbers.  The
`symbol` constructor stands for the engine values (for example ES6
symbols) that satisfy none of the predicates tested by Wrap. -/
inductive V8Value where
  | int32 (n : Int)
  | number (d : Rat)
  | numberObject (d : Rat)
  | boolean (b : Bool)
  | booleanObject (b : Bool)
  | string (s : String)
  | stringObject (s : String)
  | array (h : Nat)
  | function (h : Nat)
  | object (h : Nat)
  | null
  | undefined
  | symbol (h : Nat)
deriving DecidableEq

/-- v8::Value::IsInt32. -/
def V8Value.IsInt32 : V8Value → Bool
  | .int32 _ => true
  | _ => false

/-- v8::Value::IsNumber: true for every number, including int32 ones. -/
def V8Value.IsNumber : V8Value → Bool
  | .int32 _ => true
  | .number _ => true
  | _ => false

/-- v8::Value::IsNumberObject: a boxed (wrapper object) number. -/
def V8Value.IsNumberObject : V8Value → Bool
  | .numberObject _ => true
  | _ => false

/-- v8::Value::IsBoolean: a primitive boolean. -/
def V8Value.IsBoolean : V8Value → Bool
  | .boolean _ => true
  | _ => false

/-- v8::Value::IsBooleanObject: a boxed boolean. -/
def V8Value.IsBooleanObject : V8Value → Bool
  | .booleanObject _ => true
  | _ => false

/-- v8::Value::IsString: a primitive string. -/
def V8Value.IsString : V8Value → Bool
  | .string _ => true
  | _ => false

/-- v8::Value::IsStringObject: a boxed string. -/
def V8Value.IsStringObject : V8Value → Bool
  | .stringObject _ => true
  | _ => false

/-- v8::Value::IsArray. -/
def V8Value.IsArray : V8Value → Bool
  | .array _ => true
  | _ => false

/-- v8::Value::IsFunction. -/
def V8Value.IsFunction : V8Value → Bool
  | .function _ => true
  | _ => false

/-- v8::Value::IsObject: true for every heap object, including boxed
scalars, arrays and functions. -/
def V8Value.IsObject : V8Value → Bool
  | .numberObject _ => true
  | .booleanObject _ => true
  | .stringObject _ => true
  | .array _ => true
  | .function _ => true
  | .object _ => true
  | _ => false

/-- v8::Value::IsUndefined. -/
def V8Value.IsUndefined : V8Value → Bool
  | .undefined => true
  | _ => false

/-- v8::Value::IsNull. -/
def V8Value.IsNull : V8Value → Bool
  | .null => true
  | _ => false

/-- v8::Value::Int32Value, a Maybe result; defined on the values Wrap
queries it at (those passing IsInt32). -/
def V8Value.Int32Value : V8Value → Option Int
  | .int32 n => some n
  | _ => none

/-- v8::Value::NumberValue, a Maybe result; defined on the values Wrap
queries it at (those passing IsNumber or IsNumberObject). -/
def V8Value.NumberValue : V8Value → Option Rat
  | .int32 n => some (n : Rat)
  | .number d => some d
  | .numberObject d => some d
  | _ => none

/-- v8::Value::BooleanValue, a Maybe result; defined on the values Wrap
queries it at (those passing IsBoolean or IsBooleanObject). -/
def V8Value.BooleanValue : V8Value → Option Bool
  | .boolean b => some b
  | .booleanObject b => some b
  | _ => none

/-- v8::Value::ToString, a Maybe result; defined on the values Wrap
queries it at (those passing IsString or IsStringObject). -/
def V8Value.ToString : V8Value → Option String
  | .string s => some s
  | .stringObject s => some s
  | _ => none

/-- v8::Value::ToObject, a Maybe result yielding the heap handle; defined
on the values Wrap queries it at (arrays, functions, plain objects). -/
def V8Value.ToObject : V8Value → Option Nat
  | .array h => some h
  | .function h => some h
  | .object h => some h
  | _ => none

/-- The host boundary value model: V8Simple::Value and its concrete
subclasses Int, Double, Bool, String, Object, Array, Function, Callback.
A C++ null Value pointer is modelled as `none` at use sites. -/
inductive Value where
  | VInt (n : Int)
  | VDouble (d : Rat)
  | VBool (b : Bool)
  | VString (s : String)
  | VObject (h : Nat)
  | VArray (h : Nat)
  | VFunction (h : Nat)
  | VCallback (id : Nat)
deriving DecidableEq

/-- V8Simple::ScriptException: the structured error record, field names as
in the source. -/
structure ScriptException where
  Name : String
  ErrorMessage : String
  FileName : String
  StackTrace : String
  SourceLine : String
  LineNumber : Int
deriving DecidableEq

/-- Model of the information carried by a pending v8::TryCatch and its
v8::Message at the moment Context::Throw inspects it.  The three Maybe
fields model the Maybe results the engine may fail to supply:
message GetLineNumber, tryCatch StackTrace, message GetSourceLine. -/
structure TryCatchInfo where
  exceptionText : String
  messageText : String
  resourceName : String
  lineNumber : Option Int
  stackTrace : Option String
  sourceLine : Option String
deriving DecidableEq

/-- Context::Throw: converts the pending engine error into a
ScriptException.  Line number defaults to -1, stack trace and source line
default to the empty string, exactly as the FromMaybe calls in the source
do. -/
def Context.Throw (tc : TryCatchInfo) : ScriptException :=
  { Name := tc.exceptionText
  , ErrorMessage := tc.messageText
  , FileName := tc.resourceName
  , StackTrace := tc.stackTrace.getD ""
  , SourceLine := tc.sourceLine.getD ""
  , LineNumber := tc.lineNumber.getD (-1) }

/-- Host-side handler slot state: whether a ScriptExceptionHandler is
registered (the static field is non-null) and the log of exceptions
delivered to its Handle method. -/
structure HostState where
  handlerRegistered : Bool
  handled : List ScriptException
deriving DecidableEq

/-- Context::HandleScriptException: forwards to the registered handler if
one is present, otherwise does nothing. -/
def Context.HandleScriptException (st : HostState) (e : ScriptException) : HostState :=
  if st.handlerRegistered then { st with handled := st.handled ++ [e] } else st

/-- The two kinds of raised errors in the bridge: translated script
exceptions and std runtime errors (implementation errors). -/
inductive Err where
  | script (e : ScriptException)
  | runtime (msg : String)
deriving DecidableEq

instance {ε α : Type} [DecidableEq ε] [DecidableEq α] : DecidableEq (Except ε α) := fun x y =>
  match x, y with
  | .ok a, .ok b =>
    if h : a = b then isTrue (congrArg Except.ok h)
    else isFalse (fun hc => h (Except.ok.inj hc))
  | .error a, .error b =>
    if h : a = b then isTrue (congrArg Except.error h)
    else isFalse (fun hc => h (Except.error.inj hc))
  | .ok _, .error _ => isFalse (fun hc => Except.noConfusion hc)
  | .error _, .ok _ => isFalse (fun hc => Except.noConfusion hc)

/-- Context::FromJust: an empty Maybe result of an engine operation is
translated into a ScriptException built from the pending TryCatch. -/
def Context.FromJust {α : Type} (tc : TryCatchInfo) : Option α → Except Err α
  | some a => .ok a
  | none => .error (.script (Context.Throw tc))

/-- Context::Wrap (single value overload): classifies an engine value by
testing the v8 predicates in the source order, first match winning, and
produces the host boundary value; null and undefined map to the null
pointer (`none`); anything unrecognized raises std::runtime_error. -/
def Context.Wrap (tc : TryCatchInfo) (value : V8Value) : Except Err (Option Value) :=
  if value.IsInt32 then
    (Context.FromJust tc value.Int32Value).map (fun n => some (Value.VInt n))
  else if value.IsNumber || value.IsNumberObject then
    (Context.FromJust tc value.NumberValue).map (fun d => some (Value.VDouble d))
  else if value.IsBoolean || value.IsBooleanObject then
    (Context.FromJust tc value.BooleanValue).map (fun b => some (Value.VBool b))
  else if value.IsString || value.IsStringObject then
    (Context.FromJust tc value.ToString).map (fun s => some (Value.VString s))
  else if value.IsArray then
    (Context.FromJust tc value.ToObject).map (fun h => some (Value.VArray h))
  else if value.IsFunction then
    (Context.FromJust tc value.ToObject).map (fun h => some (Value.VFunction h))
  else if value.IsObject then
    (Context.FromJust tc value.ToObject).map (fun h => some (Value.VObject h))
  else if value.IsUndefined || value.IsNull then
    .ok none
  else
    .error (.runtime "Unhandled type in V8Simple")

/-- Context::Wrap (MaybeLocal overload): FromJust then Wrap. -/
def Context.WrapMaybe (tc : TryCatchInfo) (m : Option V8Value) : Except Err (Option Value) :=
  (Context.FromJust tc m).bind (Context.Wrap tc)

/-- The try/catch pattern shared by every public facade operation: run the
body; on a ScriptException, forward it to the registered handler and
return the default (null pointer, false, or unit); a std::runtime_error is
not caught by the catch clause for ScriptException and propagates to the
caller (the Except.error String branch). -/
def runTrap {α : Type} (st : HostState) (dflt : α) (body : Except Err α) :
    Except String (HostState × α) :=
  match body with
  | .ok a => .ok (st, a)
  | .error (.script e) => .ok (Context.HandleScriptException st e, dflt)
  | .error (.runtime msg) => .error msg

/-- Context::Evaluate: Script::Compile is FromJust-ed, then the Run result
is passed through the MaybeLocal overload of Wrap; the whole body is
trapped.  The oracle argument is the engine outcome: `none` for a compile
error, `some r` for a successful compile with `r` the Maybe result of
running the script. -/
def Context.Evaluate (st : HostState) (tc : TryCatchInfo)
    (compiled : Option (Option V8Value)) : Except String (HostState × Option Value) :=
  runTrap st none (do
    let runResult ← Context.FromJust tc compiled
    Context.WrapMaybe tc runResult)

/-- Object::Get: the engine property read (a MaybeLocal) is wrapped;
trapped, returning a null pointer on script failure. -/
def Object.Get (st : HostState) (tc : TryCatchInfo) (res : Option V8Value) :
    Except String (HostState × Option Value) :=
  runTrap st none (Context.WrapMaybe tc res)

/-- Object::Set: the engine property write returns a Maybe bool that is
FromJust-ed; trapped, completing as a no-op on script failure. -/
def Object.Set (st : HostState) (tc : TryCatchInfo) (res : Option Bool) :
    Except String (HostState × Unit) :=
  runTrap st () ((Context.FromJust tc res).map (fun _ => ()))

/-- Object::Keys: GetPropertyNames is FromJust-ed and each name is copied
out with NewString (modelled as the identity on contents); trapped,
returning the empty vector on script failure. -/
def Object.Keys (st : HostState) (tc : TryCatchInfo) (names : Option (List String)) :
    Except String (HostState × List String) :=
  runTrap st [] (Context.FromJust tc names)

/-- Object::ContainsKey: the engine Has result (Maybe bool) is
FromJust-ed; trapped, returning false on script failure. -/
def Object.ContainsKey (st : HostState) (tc : TryCatchInfo) (res : Option Bool) :
    Except String (HostState × Bool) :=
  runTrap st false (Context.FromJust tc res)

/-- Object::Equals: the engine Equals result (Maybe bool) is FromJust-ed;
trapped, returning false on script failure. -/
def Object.Equals (st : HostState) (tc : TryCatchInfo) (res : Option Bool) :
    Except String (HostState × Bool) :=
  runTrap st false (Context.FromJust tc res)

/-- Object::CallMethod: the property lookup of the method is FromJust-ed
(its value is then used as the callee), the call result is wrapped;
trapped, returning a null pointer on script failure. -/
def Object.CallMethod (st : HostState) (tc : TryCatchInfo)
    (methodLookup : Option V8Value) (callRes : Option V8Value) :
    Except String (HostState × Option Value) :=
  runTrap st none (do
    let _ ← Context.FromJust tc methodLookup
    Context.WrapMaybe tc callRes)

/-- Function::Call: the engine call result is wrapped; trapped, returning
a null pointer on script failure. -/
def Function.Call (st : HostState) (tc : TryCatchInfo) (callRes : Option V8Value) :
    Except String (HostState × Option Value) :=
  runTrap st none (Context.WrapMaybe tc callRes)

/-- Function::Construct: NewInstance is FromJust-ed and wrapped in a fresh
host Object handle; trapped, returning a null pointer on script failure. -/
def Function.Construct (st : HostState) (tc : TryCatchInfo) (res : Option Nat) :
    Except String (HostState × Option Nat) :=
  runTrap st none ((Context.FromJust tc res).map some)

/-- Function::Equals: like Object::Equals. -/
def Function.Equals (st : HostState) (tc : TryCatchInfo) (res : Option Bool) :
    Except String (HostState × Bool) :=
  runTrap st false (Context.FromJust tc res)

/-- Array::Get: the engine element read is wrapped; trapped, returning a
null pointer on script failure. -/
def Array.Get (st : HostState) (tc : TryCatchInfo) (res : Option V8Value) :
    Except String (HostState × Option Value) :=
  runTrap st none (Context.WrapMaybe tc res)

/-- Array::Set: the engine element write returns a Maybe bool that is
FromJust-ed; trapped, completing as a no-op on script failure. -/
def Array.Set (st : HostState) (tc : TryCatchInfo) (res : Option Bool) :
    Except String (HostState × Unit) :=
  runTrap st () ((Context.FromJust tc res).map (fun _ => ()))

/-- Array::Equals: like Object::Equals. -/
def Array.Equals (st : HostState) (tc : TryCatchInfo) (res : Option Bool) :
    Except String (HostState × Bool) :=
  runTrap st false (Context.FromJust tc res)

/-- The static downcast and dereference at the end of Object::InstanceOf:
the Value pointer returned by Function::Call is cast to a Bool pointer and
its GetValue is read.  A valid boolean result yields its value; a null
pointer (the failure result of Call) or a pointer to a non-Bool value is a
null dereference or a misread, modelled as `none` (undefined behavior, no
boolean is returned). -/
def derefBool : Option Value → Option Bool
  | some (.VBool b) => some b
  | _ => none

/-- Object::InstanceOf: delegates to Function::Call on the cached
instanceof helper with the object and the type as arguments, then
dereferences the downcast result.  Note: unlike every other facade
operation, InstanceOf installs no try/catch of its own. -/
def Object.InstanceOf (st : HostState) (tc : TryCatchInfo) (callRes : Option V8Value) :
    Except String (HostState × Option Bool) :=
  match Function.Call st tc callRes with
  | .ok r => .ok (r.1, derefBool r.2)
  | .error msg => .error msg

/-- The process-wide static state of Context: whether the engine platform
has been initialized, whether an isolate (and hence a live Context)
exists, and the handler slot. -/
structure GlobalState where
  platformInit : Bool
  isolateLive : Bool
  host : HostState
deriving DecidableEq

/-- Context::Context: initializes the platform once, then either creates
the isolate (none live) and registers the handler, or raises
std::runtime_error to the caller when an isolate is already live.  The
second component is the raised error, if any.  The bootstrap evaluation of
the instanceof helper on the success path is outside this model. -/
def Context.construct (g : GlobalState) (handlerPresent : Bool) :
    GlobalState × Option String :=
  let g1 : GlobalState := { g with platformInit := true }
  if g1.isolateLive then
    (g1, some "V8Simple Contexts are not re-entrant")
  else
    ({ g1 with isolateLive := true
             , host := { handlerRegistered := handlerPresent
                       , handled := g1.host.handled } }, none)

/-- Callback::Call (base class body): always raises std::runtime_error to
its immediate caller; it never touches the handler slot (which does not
even occur in its signature). -/
def Callback.Call (_args : List (Option Value)) : Except String (Option Value) :=
  .error "Callback.Call not implemented"

/-- State threaded through Context::Unwrap for its Callback case: a fresh
engine handle counter for synthesized functions, and the log of Retain
calls made on boxed callbacks. -/
structure UnwrapState where
  nextHandle : Nat
  retained : List Nat
deriving DecidableEq

/-- Number canonicalization of v8::Number::New: a number whose value is an
integer in 32-bit range is an int32 value (IsInt32 holds for it). -/
def numberNew (d : Rat) : V8Value :=
  if d.den = 1 ∧ -(2 : Int) ^ 31 ≤ d.num ∧ d.num < (2 : Int) ^ 31 then
    .int32 d.num
  else
    .number d

/-- Context::Unwrap: scalars are rebuilt as engine values, Object, Array
and Function resolve their held persistent handles, a null pointer becomes
engine null, and a Callback is retained and boxed into a freshly
synthesized script-callable function. -/
def Context.Unwrap : UnwrapState → Option Value → UnwrapState × V8Value
  | s, none => (s, .null)
  | s, some (.VInt n) => (s, .int32 n)
  | s, some (.VDouble d) => (s, numberNew d)
  | s, some (.VString str) => (s, .string str)
  | s, some (.VBool b) => (s, .boolean b)
  | s, some (.VObject h) => (s, .object h)
  | s, some (.VArray h) => (s, .array h)
  | s, some (.VFunction h) => (s, .function h)
  | s, some (.VCallback id) =>
    ({ nextHandle := s.nextHandle + 1, retained := s.retained ++ [id] },
     .function s.nextHandle)

/-- Context::UnwrapVector: unwraps a host-ordered vector of Values one by
one in order, pushing each engine value onto the result. -/
def Context.UnwrapVector : UnwrapState → List (Option Value) → UnwrapState × List V8Value
  | s, [] => (s, [])
  | s, v :: rest =>
    let r := Context.Unwrap s v
    let r2 := Context.UnwrapVector r.1 rest
    (r2.1, r.2 :: r2.2)

/-- One property map: keys with their enumerable attribute.  Values are
irrelevant to the claims and omitted. -/
structure PropEntry where
  key : String
  enumerable : Bool
deriving DecidableEq

/-- Engine-interface model of a script heap object for the property
claims: its own property map followed by the property maps of its
prototype chain. -/
abbrev EngObject := List (List PropEntry)

/-- All properties of the object and its prototype chain, own first. -/
def allProps (o : EngObject) : List PropEntry := o.flatten

/-- Engine-interface model of v8::Object::GetPropertyNames: the names of
the enumerable properties of the object, including properties of its
prototype chain, each name reported once. -/
def v8GetPropertyNames (o : EngObject) : List String :=
  (((allProps o).filter (fun p => p.enumerable)).map (fun p => p.key)).dedup

/-- Engine-interface model of v8::Object::Has, the HasProperty abstract
operation (the JS `in` operator): true when the key is an own or
inherited property, enumerable or not. -/
def v8Has (o : EngObject) (k : String) : Bool :=
  (allProps o).any (fun p => p.key == k)

/-- The static_cast of a signed int index to uint32_t in Array::Get and
Array::Set: reduction modulo 2^32. -/
def toUInt32 (i : Int) : Nat := (i % (2 : Int) ^ 32).toNat

/-- Engine-interface model of reading an array element: an index outside
the current range reads an absent property and yields undefined. -/
def v8ArrayGet (elems : List V8Value) (idx : Nat) : V8Value :=
  (elems.get? idx).getD .undefined

/-- Engine-interface model of writing an array element: an index outside
the current range extends the array, padding with holes (undefined). -/
def v8ArraySet (elems : List V8Value) (idx : Nat) (v : V8Value) : List V8Value :=
  if idx < elems.length then elems.set idx v
  else elems ++ List.replicate (idx - elems.length) V8Value.undefined ++ [v]

/-- Array::Get at a signed index, composed with the ordinary engine
element semantics: the index is first coerced to uint32_t, and the element
read never fails on its own (no bounds check in the facade). -/
def Array.GetAt (st : HostState) (tc : TryCatchInfo) (elems : List V8Value)
    (index : Int) : Except String (HostState × Option Value) :=
  Array.Get st tc (some (v8ArrayGet elems (toUInt32 index)))

/-- Array::Set at a signed index, composed with the ordinary engine
element semantics: the index is first coerced to uint32_t, the write
reports success, and the engine array after the write is returned. -/
def Array.SetAt (st : HostState) (tc : TryCatchInfo) (elems : List V8Value)
    (index : Int) (v : V8Value) :
    Except String (HostState × Unit) × List V8Value :=
  (Array.Set st tc (some true), v8ArraySet elems (toUInt32 index) v)

/-- Host heap of byte buffers for the V8Simple::String model: a pointer is
an index into the allocation list; a freed buffer is `none`. -/
structure Mem where
  buffers : List (Option (List Nat))
deriving DecidableEq

/-- Read the buffer at a pointer; a dangling or freed pointer reads as the
empty byte sequence. -/
def Mem.read (m : Mem) (p : Nat) : List Nat :=
  ((m.buffers.get? p).getD none).getD []

/-- new char array: append a fresh buffer, returning its pointer. -/
def Mem.alloc (m : Mem) (bytes : List Nat) : Mem × Nat :=
  ({ buffers := m.buffers ++ [some bytes] }, m.buffers.length)

/-- Overwrite the buffer at a pointer (mutation of the pointed-to bytes). -/
def Mem.write (m : Mem) (p : Nat) (bytes : List Nat) : Mem :=
  { buffers := m.buffers.set p (some bytes) }

/-- delete of a char array: the buffer at the pointer is gone. -/
def Mem.dealloc (m : Mem) (p : Nat) : Mem :=
  { buffers := m.buffers.set p none }

/-- The V8Simple::String host object: owned buffer pointer and length. -/
structure HostStr where
  ptr : Nat
  len : Nat
deriving DecidableEq

/-- String::String(const char* value, int length): allocates a fresh
buffer of length+1 bytes and memcpy-s length+1 bytes from the source
region (the readable bytes at the source pointer). -/
def HostStr.ctorLen (m : Mem) (value : List Nat) (length : Nat) : Mem × HostStr :=
  let r := m.alloc (value.take (length + 1))
  (r.1, { ptr := r.2, len := length })

/-- Length of a C string region: the number of bytes before the first
null byte. -/
def cstrlen : List Nat → Nat
  | [] => 0
  | b :: rest => if b = 0 then 0 else cstrlen rest + 1

/-- String::String(const char* value): delegates to the two-argument
constructor with strlen of the source. -/
def HostStr.ctorCStr (m : Mem) (value : List Nat) : Mem × HostStr :=
  HostStr.ctorLen m value (cstrlen value)

/-- String::String(const String&): delegates to the two-argument
constructor with the buffer and length of the source String. -/
def HostStr.copyCtor (m : Mem) (s : HostStr) : Mem × HostStr :=
  HostStr.ctorLen m (m.read s.ptr) s.len

/-- String::~String: frees the owned buffer. -/
def HostStr.dtor (m : Mem) (s : HostStr) : Mem :=
  m.dealloc s.ptr

/-- The String buffer invariant: the owned buffer holds exactly length+1
bytes and its last byte (at index length) is the null terminator. -/
def HostStr.wf (m : Mem) (s : HostStr) : Prop :=
  (m.read s.ptr).length = s.len + 1 ∧ (m.read s.ptr).get? s.len = some 0

instance (m : Mem) (s : HostStr) : Decidable (HostStr.wf m s) := by
  unfold HostStr.wf; infer_instance

/-- C2: Context::Wrap classifies an engine value with the predicate order
int32, number or boxed number, boolean, string, array, function, plain
object (first match winning, as the full characterization below shows on
the overlapping categories); null and undefined become the host null
pointer, not a variant; and an engine value of an unrecognized category
(for instance a symbol) raises the implementation error
std::runtime_error, a different constructor than a ScriptException. -/
theorem wrap_classification (tc : TryCatchInfo) (n : Int) (d : Rat) (b : Bool)
    (s : String) (h k : Nat) :
    Context.Wrap tc (.int32 n) = .ok (some (.VInt n)) ∧
    Context.Wrap tc (.number d) = .ok (some (.VDouble d)) ∧
    Context.Wrap tc (.numberObject d) = .ok (some (.VDouble d)) ∧
    Context.Wrap tc (.boolean b) = .ok (some (.VBool b)) ∧
    Context.Wrap tc (.booleanObject b) = .ok (some (.VBool b)) ∧
    Context.Wrap tc (.string s) = .ok (some (.VString s)) ∧
    Context.Wrap tc (.stringObject s) = .ok (some (.VString s)) ∧
    Context.Wrap tc (.array h) = .ok (some (.VArray h)) ∧
    Context.Wrap tc (.function h) = .ok (some (.VFunction h)) ∧
    Context.Wrap tc (.object h) = .ok (some (.VObject h)) ∧
    Context.Wrap tc .null = .ok none ∧
    Context.Wrap tc .undefined = .ok none ∧
    Context.Wrap tc (.symbol k) = .error (.runtime "Unhandled type in V8Simple") ∧
    Err.runtime "Unhandled type in V8Simple" ≠ Err.script (Context.Throw tc) :=
  ⟨rfl, rfl, rfl, rfl, rfl, rfl, rfl, rfl, rfl, rfl, rfl, rfl, rfl,
   fun hcon => Err.noConfusion hcon⟩

/-- C10: Context::Wrap converts boxed wrapper objects (number objects,
boolean objects, string objects) into the scalar boundary variants Double,
Bool and String, never into the Object variant, although every boxed
wrapper satisfies IsObject. -/
theorem wrap_boxed_scalars (tc : TryCatchInfo) (d : Rat) (b : Bool) (s : String)
    (h : Nat) :
    Context.Wrap tc (.numberObject d) = .ok (some (.VDouble d)) ∧
    Context.Wrap tc (.booleanObject b) = .ok (some (.VBool b)) ∧
    Context.Wrap tc (.stringObject s) = .ok (some (.VString s)) ∧
    V8Value.IsObject (.numberObject d) = true ∧
    V8Value.IsObject (.booleanObject b) = true ∧
    V8Value.IsObject (.stringObject s) = true ∧
    Context.Wrap tc (.numberObject d) ≠ .ok (some (.VObject h)) ∧
    Context.Wrap tc (.booleanObject b) ≠ .ok (some (.VObject h)) ∧
    Context.Wrap tc (.stringObject s) ≠ .ok (some (.VObject h)) :=
  ⟨rfl, rfl, rfl, rfl, rfl, rfl,
   fun hcon => Value.noConfusion (Option.some.inj (Except.ok.inj hcon)),
   fun hcon => Value.noConfusion (Option.some.inj (Except.ok.inj hcon)),
   fun hcon => Value.noConfusion (Option.some.inj (Except.ok.inj hcon))⟩

/-- C7: Context::Throw builds the ScriptException from the pending engine
error with the engine-reported line number (or -1 when the engine supplies
none), the empty string when no stack trace is available, and the empty
string when the source line text is unavailable. -/
theorem throw_fields_defaults (tc : TryCatchInfo) :
    (∀ ln : Int, tc.lineNumber = some ln → (Context.Throw tc).LineNumber = ln) ∧
    (tc.lineNumber = none → (Context.Throw tc).LineNumber = -1) ∧
    (tc.stackTrace = none → (Context.Throw tc).StackTrace = "") ∧
    (tc.sourceLine = none → (Context.Throw tc).SourceLine = "") := by
  refine ⟨?_, ?_, ?_, ?_⟩
  · intro ln hln; simp [Context.Throw, hln]
  · intro hln; simp [Context.Throw, hln]
  · intro hst; simp [Context.Throw, hst]
  · intro hsl; simp [Context.Throw, hsl]

/-- Witness for C7 at two concrete pending errors, one with the engine
supplying nothing and one with a reported line number. -/
theorem throw_fields_defaults_witness :
    (Context.Throw ⟨"n", "m", "f", none, none, none⟩).LineNumber = -1 ∧
    (Context.Throw ⟨"n", "m", "f", none, none, none⟩).StackTrace = "" ∧
    (Context.Throw ⟨"n", "m", "f", none, none, none⟩).SourceLine = "" ∧
    (Context.Throw ⟨"n", "m", "f", some 7, some "tr", some "sl"⟩).LineNumber = 7 :=
  ⟨(throw_fields_defaults ⟨"n", "m", "f", none, none, none⟩).2.1 rfl,
   (throw_fields_defaults ⟨"n", "m", "f", none, none, none⟩).2.2.1 rfl,
   (throw_fields_defaults ⟨"n", "m", "f", none, none, none⟩).2.2.2 rfl,
   (throw_fields_defaults ⟨"n", "m", "f", some 7, some "tr", some "sl"⟩).1 7 rfl⟩

/-- C9: when no ScriptExceptionHandler is registered, a caught
ScriptException is silently discarded by Context::HandleScriptException
(the state is unchanged), and a failing operation still returns its
null-pointer failure result without raising anything further. -/
theorem handler_absent_discards (st : HostState) (e : ScriptException)
    (tc : TryCatchInfo) (hreg : st.handlerRegistered = false) :
    Context.HandleScriptException st e = st ∧
    Context.Evaluate st tc none = .ok (st, none) := by
  have h1 : Context.HandleScriptException st e = st := by
    simp [Context.HandleScriptException, hreg]
  have h2 : Context.HandleScriptException st (Context.Throw tc) = st := by
    simp [Context.HandleScriptException, hreg]
  refine ⟨h1, ?_⟩
  calc Context.Evaluate st tc none
      = .ok (Context.HandleScriptException st (Context.Throw tc), none) := rfl
    _ = .ok (st, none) := by rw [h2]

/-- Witness for C9 with an unregistered handler slot. -/
theorem handler_absent_discards_witness :
    (⟨false, []⟩ : HostState).handlerRegistered = false ∧
    Context.Evaluate ⟨false, []⟩ ⟨"e", "m", "f", none, none, none⟩ none =
      .ok (⟨false, []⟩, none) :=
  ⟨rfl,
   (handler_absent_discards ⟨false, []⟩ (Context.Throw ⟨"e", "m", "f", none, none, none⟩)
     ⟨"e", "m", "f", none, none, none⟩ rfl).2⟩

/-- C3: constructing a Context while another is live raises
std::runtime_error to the immediate caller without touching the handler
log, and Callback::Call on a Callback providing no implementation raises
std::runtime_error to its immediate caller (its signature has no access to
the handler slot at all). -/
theorem lifecycle_errors_raised_to_caller (g : GlobalState) (hp : Bool)
    (args : List (Option Value)) (hlive : g.isolateLive = true) :
    Context.construct g hp =
      ({ g with platformInit := true }, some "V8Simple Contexts are not re-entrant") ∧
    (Context.construct g hp).1.host.handled = g.host.handled ∧
    Callback.Call args = .error "Callback.Call not implemented" := by
  refine ⟨?_, ?_, rfl⟩
  · simp [Context.construct, hlive]
  · simp [Context.construct, hlive]

/-- Witness for C3 at a live-isolate global state. -/
theorem lifecycle_errors_witness :
    (⟨true, true, ⟨true, []⟩⟩ : GlobalState).isolateLive = true ∧
    Context.construct ⟨true, true, ⟨true, []⟩⟩ false =
      (⟨true, true, ⟨true, []⟩⟩, some "V8Simple Contexts are not re-entrant") ∧
    Callback.Call [] = .error "Callback.Call not implemented" :=
  ⟨rfl,
   (lifecycle_errors_raised_to_caller ⟨true, true, ⟨true, []⟩⟩ false [] rfl).1,
   (lifecycle_errors_raised_to_caller ⟨true, true, ⟨true, []⟩⟩ false [] rfl).2.2⟩

/-- Counterexample to C1 as stated: Object::InstanceOf is a public facade
operation with a boolean result, yet on a script-level failure of the
delegated call it does not return false; the inner Function::Call traps
the exception, reports it and returns a null pointer, and InstanceOf then
dereferences that null pointer (modelled as the `none` outcome), so no
boolean false is returned at the public boundary. -/
theorem instanceOf_counterexample :
    Object.InstanceOf ⟨true, []⟩ ⟨"e", "m", "f", none, none, none⟩ none =
      .ok (⟨true, [Context.Throw ⟨"e", "m", "f", none, none, none⟩]⟩,
           (none : Option Bool)) ∧
    Object.InstanceOf ⟨true, []⟩ ⟨"e", "m", "f", none, none, none⟩ none ≠
      .ok (⟨true, [Context.Throw ⟨"e", "m", "f", none, none, none⟩]⟩, some false) :=
  ⟨rfl, by decide⟩

/-- Helper: the byte at the strlen position of a region containing a null
byte is the null terminator. -/
theorem cstrlen_get_zero (value : List Nat) (h : (0 : Nat) ∈ value) :
    value.get? (cstrlen value) = some 0 := by
  induction value with
  | nil => cases h
  | cons b rest ih =>
    by_cases hb : b = 0
    · subst hb
      simp [cstrlen]
    · have hmem : (0 : Nat) ∈ rest := by
        rcases List.mem_cons.mp h with h1 | h2
        · exact absurd h1.symm hb
        · exact h2
      simp only [cstrlen, if_neg hb]
      simpa using ih hmem

/-- Helper: reading a freshly allocated buffer yields the allocated
bytes. -/
theorem Mem.read_alloc (m : Mem) (bytes : List Nat) :
    (m.alloc bytes).1.read (m.alloc bytes).2 = bytes := by
  unfold Mem.alloc Mem.read
  simp only
  rw [List.get?_concat_length]
  rfl

/-- Helper: writing one buffer leaves every other buffer unchanged. -/
theorem Mem.read_write_ne (m : Mem) (p q : Nat) (bytes : List Nat) (hne : p ≠ q) :
    (m.write p bytes).read q = m.read q := by
  unfold Mem.write Mem.read
  simp only
  rw [List.get?_set_ne _ _ hne]

/-- Helper: freeing one buffer leaves every other buffer unchanged. -/
theorem Mem.read_dealloc_ne (m : Mem) (p q : Nat) (hne : p ≠ q) :
    (m.dealloc p).read q = m.read q := by
  unfold Mem.dealloc Mem.read
  simp only
  rw [List.get?_set_ne _ _ hne]

/-- Helper: a live String satisfies ptr within the allocation list. -/
theorem wf_ptr_lt (m : Mem) (s : HostStr) (hwf : HostStr.wf m s) :
    s.ptr < m.buffers.length := by
  obtain ⟨h1, _⟩ := hwf
  by_contra hge
  have hnone : m.buffers.get? s.ptr = none :=
    List.get?_eq_none.mpr (Nat.le_of_not_lt hge)
  have hempty : m.read s.ptr = [] := by
    unfold Mem.read
    rw [hnone]
    rfl
  rw [hempty] at h1
  simp at h1

/-- Helper: the two-argument String constructor establishes the buffer
invariant whenever the source region carries the null terminator at the
given length. -/
theorem ctorLen_wf (m : Mem) (value : List Nat) (length : Nat)
    (hterm : value.get? length = some 0) :
    HostStr.wf (HostStr.ctorLen m value length).1 (HostStr.ctorLen m value length).2 := by
  have hlt : length < value.length := by
    by_contra hge
    rw [List.get?_eq_none.mpr (Nat.le_of_not_lt hge)] at hterm
    cases hterm
  have hread : (HostStr.ctorLen m value length).1.read
      (HostStr.ctorLen m value length).2.ptr = value.take (length + 1) :=
    Mem.read_alloc m (value.take (length + 1))
  constructor
  · rw [hread]
    show (value.take (length + 1)).length = length + 1
    rw [List.length_take]
    omega
  · rw [hread]
    show (value.take (length + 1)).get? length = some 0
    rw [List.get?_take (by omega)]
    exact hterm

/-- C6: String copy construction allocates a fresh buffer (a different
pointer) holding the same bytes, so that overwriting or freeing the
buffer of the source afterwards leaves the bytes of the copy unchanged;
and every constructor establishes the invariant that the owned buffer is
length+1 bytes ending in the null terminator: the copy constructor from
the invariant of its source, the two-argument constructor whenever the
source region carries the terminator at the given length (the region it
is asked to copy), and the strlen constructor for every region containing
a null byte. -/
theorem string_copy_independent (m : Mem) (s : HostStr) (hwf : HostStr.wf m s) :
    (HostStr.copyCtor m s).2.ptr ≠ s.ptr ∧
    (HostStr.copyCtor m s).2.len = s.len ∧
    (HostStr.copyCtor m s).1.read (HostStr.copyCtor m s).2.ptr = m.read s.ptr ∧
    (∀ bytes, (Mem.write (HostStr.copyCtor m s).1 s.ptr bytes).read
        (HostStr.copyCtor m s).2.ptr =
      (HostStr.copyCtor m s).1.read (HostStr.copyCtor m s).2.ptr) ∧
    ((HostStr.dtor (HostStr.copyCtor m s).1 s).read (HostStr.copyCtor m s).2.ptr =
      (HostStr.copyCtor m s).1.read (HostStr.copyCtor m s).2.ptr) ∧
    HostStr.wf (HostStr.copyCtor m s).1 (HostStr.copyCtor m s).2 ∧
    (∀ (value : List Nat) (length : Nat), value.get? length = some 0 →
      HostStr.wf (HostStr.ctorLen m value length).1
        (HostStr.ctorLen m value length).2) ∧
    (∀ value : List Nat, (0 : Nat) ∈ value →
      HostStr.wf (HostStr.ctorCStr m value).1 (HostStr.ctorCStr m value).2) := by
  have hlt : s.ptr < m.buffers.length := wf_ptr_lt m s hwf
  have hptr : (HostStr.copyCtor m s).2.ptr = m.buffers.length := rfl
  have hne : s.ptr ≠ (HostStr.copyCtor m s).2.ptr := by
    rw [hptr]
    omega
  have htake : (m.read s.ptr).take (s.len + 1) = m.read s.ptr := by
    rw [← hwf.1]
    exact List.take_length _
  have hread : (HostStr.copyCtor m s).1.read (HostStr.copyCtor m s).2.ptr =
      m.read s.ptr := by
    have h0 : (HostStr.copyCtor m s).1.read (HostStr.copyCtor m s).2.ptr =
        (m.read s.ptr).take (s.len + 1) :=
      Mem.read_alloc m ((m.read s.ptr).take (s.len + 1))
    rw [h0, htake]
  refine ⟨?_, rfl, hread, ?_, ?_, ?_, ?_, ?_⟩
  · rw [hptr]
    omega
  · intro bytes
    exact Mem.read_write_ne (HostStr.copyCtor m s).1 s.ptr
      (HostStr.copyCtor m s).2.ptr bytes hne
  · exact Mem.read_dealloc_ne (HostStr.copyCtor m s).1 s.ptr
      (HostStr.copyCtor m s).2.ptr hne
  · constructor
    · rw [hread]
      exact hwf.1
    · rw [hread]
      exact hwf.2
  · intro value length hterm
    exact ctorLen_wf m value length hterm
  · intro value hmem
    exact ctorLen_wf m value (cstrlen value) (cstrlen_get_zero value hmem)

/-- Witness for C6 at a one-buffer heap holding the bytes of "hi". -/
theorem string_copy_independent_witness :
    HostStr.wf ⟨[some [104, 105, 0]]⟩ ⟨0, 2⟩ ∧
    (HostStr.copyCtor ⟨[some [104, 105, 0]]⟩ ⟨0, 2⟩).2.ptr ≠ (0 : Nat) ∧
    (HostStr.copyCtor ⟨[some [104, 105, 0]]⟩ ⟨0, 2⟩).1.read
        (HostStr.copyCtor ⟨[some [104, 105, 0]]⟩ ⟨0, 2⟩).2.ptr =
      Mem.read ⟨[some [104, 105, 0]]⟩ 0 :=
  ⟨by decide,
   (string_copy_independent ⟨[some [104, 105, 0]]⟩ ⟨0, 2⟩ (by decide)).1,
   (string_copy_independent ⟨[some [104, 105, 0]]⟩ ⟨0, 2⟩ (by decide)).2.2.1⟩

/-- C5: Array::Get and Array::Set first coerce the signed index to
uint32_t (reduction modulo 2^32) and perform no bounds check of their own:
a Set at any index succeeds, and a Get at an index outside the current
range reads undefined from the engine and therefore returns the host null
value without reporting any error (the handler state is unchanged). -/
theorem array_index_coercion (st : HostState) (tc : TryCatchInfo)
    (elems : List V8Value) (i : Int) (v : V8Value)
    (h : elems.length ≤ toUInt32 i) :
    Array.GetAt st tc elems i = .ok (st, none) ∧
    (Array.SetAt st tc elems i v).1 = .ok (st, ()) ∧
    (Array.SetAt st tc elems i v).2.get? (toUInt32 i) = some v := by
  have h0 : v8ArrayGet elems (toUInt32 i) = .undefined := by
    unfold v8ArrayGet
    rw [List.get?_eq_none.mpr h]
    rfl
  refine ⟨?_, rfl, ?_⟩
  · unfold Array.GetAt
    rw [h0]
    rfl
  · unfold Array.SetAt v8ArraySet
    simp only
    rw [if_neg (by omega)]
    rw [List.get?_append_right (by simp; omega)]
    simp only [List.length_append, List.length_replicate]
    have hz : toUInt32 i - (elems.length + (toUInt32 i - elems.length)) = 0 := by
      omega
    rw [hz]
    rfl

/-- Witness for C5 at the empty array and index 3 (out of range). -/
theorem array_index_coercion_witness :
    ([] : List V8Value).length ≤ toUInt32 3 ∧
    Array.GetAt ⟨true, []⟩ ⟨"e", "m", "f", none, none, none⟩ [] 3 =
      .ok (⟨true, []⟩, none) :=
  ⟨by decide,
   (array_index_coercion ⟨true, []⟩ ⟨"e", "m", "f", none, none, none⟩ [] 3
     V8Value.null (by decide)).1⟩

/-- C8: Context::UnwrapVector maps a host-ordered sequence of Values to an
equal-length sequence of engine values whose i-th element is Unwrap
applied to the i-th input (at the state reached after unwrapping the
first i inputs), preserving order. -/
theorem unwrapVector_pointwise (s : UnwrapState) (vs : List (Option Value)) :
    (Context.UnwrapVector s vs).2.length = vs.length ∧
    ∀ i : Nat, (Context.UnwrapVector s vs).2.get? i =
      (vs.get? i).map
        (fun v => (Context.Unwrap (Context.UnwrapVector s (vs.take i)).1 v).2) := by
  induction vs generalizing s with
  | nil =>
    refine ⟨rfl, ?_⟩
    intro i
    simp [Context.UnwrapVector]
  | cons v rest ih =>
    refine ⟨?_, ?_⟩
    · show ((Context.Unwrap s v).2 ::
          (Context.UnwrapVector (Context.Unwrap s v).1 rest).2).length = rest.length + 1
      simp [(ih (Context.Unwrap s v).1).1]
    · intro i
      cases i with
      | zero => rfl
      | succ n => exact (ih (Context.Unwrap s v).1).2 n

/-- Counterexample to C4 as stated: an object with a single own,
non-enumerable property "x".  Keys returns the empty sequence, yet
ContainsKey "x" is true, so ContainsKey does not hold for exactly the keys
returned by Keys. -/
theorem keys_containsKey_counterexample :
    Object.Keys ⟨true, []⟩ ⟨"e", "m", "f", none, none, none⟩
      (some (v8GetPropertyNames [[⟨"x", false⟩]])) =
      .ok (⟨true, []⟩, []) ∧
    Object.ContainsKey ⟨true, []⟩ ⟨"e", "m", "f", none, none, none⟩
      (some (v8Has [[⟨"x", false⟩]] "x")) =
      .ok (⟨true, []⟩, true) ∧
    ¬ ("x" ∈ v8GetPropertyNames [[⟨"x", false⟩]]) :=
  ⟨rfl, rfl, by decide⟩

/-- C4 amended: Keys returns each enumerable property name of the object,
including inherited ones, exactly once; ContainsKey is true for exactly
the keys present on the object or its prototype chain regardless of
enumerability; hence every key returned by Keys satisfies ContainsKey, but
ContainsKey may also accept keys (non-enumerable ones) that Keys does not
return. -/
theorem keys_containsKey_amended (o : EngObject) (st : HostState)
    (tc : TryCatchInfo) (k : String) :
    Object.Keys st tc (some (v8GetPropertyNames o)) =
      .ok (st, v8GetPropertyNames o) ∧
    (v8GetPropertyNames o).Nodup ∧
    (k ∈ v8GetPropertyNames o ↔
      ∃ p, p ∈ allProps o ∧ p.enumerable = true ∧ p.key = k) ∧
    Object.ContainsKey st tc (some (v8Has o k)) = .ok (st, v8Has o k) ∧
    (v8Has o k = true ↔ ∃ p, p ∈ allProps o ∧ p.key = k) ∧
    (k ∈ v8GetPropertyNames o → v8Has o k = true) := by
  have hmem : ∀ k2 : String, k2 ∈ v8GetPropertyNames o ↔
      ∃ p, p ∈ allProps o ∧ p.enumerable = true ∧ p.key = k2 := by
    intro k2
    unfold v8GetPropertyNames
    rw [List.mem_dedup, List.mem_map]
    constructor
    · rintro ⟨p, hp, hk⟩
      rw [List.mem_filter] at hp
      exact ⟨p, hp.1, hp.2, hk⟩
    · rintro ⟨p, hp, he, hk⟩
      exact ⟨p, List.mem_filter.mpr ⟨hp, he⟩, hk⟩
  have hhas : v8Has o k = true ↔ ∃ p, p ∈ allProps o ∧ p.key = k := by
    unfold v8Has
    rw [List.any_eq_true]
    constructor
    · rintro ⟨p, hp, hk⟩
      exact ⟨p, hp, by simpa using hk⟩
    · rintro ⟨p, hp, hk⟩
      exact ⟨p, hp, by simpa using hk⟩
  refine ⟨rfl, List.nodup_dedup _, hmem k, rfl, hhas, ?_⟩
  intro hk
  obtain ⟨p, hp, he, hkey⟩ := (hmem k).mp hk
  exact hhas.mpr ⟨p, hp, hkey⟩

/-- Witness for C4 amended: a key returned by Keys satisfies ContainsKey. -/
theorem keys_containsKey_witness :
    v8Has [[⟨"a", true⟩]] "a" = true :=
  (keys_containsKey_amended [[⟨"a", true⟩]] ⟨true, []⟩
    ⟨"e", "m", "f", none, none, none⟩ "a").2.2.2.2.2 (by decide)

/-- C1 amended: every listed public operation except Object::InstanceOf
catches a script-level failure inside the operation, forwards it to the
registered handler and returns the null pointer, false, or completes as a
no-op; a ScriptException never propagates past the public boundary (the
error channel of the model carries only std::runtime_error messages).
Object::InstanceOf installs no trap of its own: the failure is caught and
forwarded inside the delegated Function::Call, which returns a null
pointer that InstanceOf then dereferences (the `none` outcome) instead of
returning false. -/
theorem trap_pattern_amended (st : HostState) (tc : TryCatchInfo)
    (mv : V8Value) (mres : Option V8Value) :
    Context.Evaluate st tc none =
      .ok (Context.HandleScriptException st (Context.Throw tc), none) ∧
    Context.Evaluate st tc (some none) =
      .ok (Context.HandleScriptException st (Context.Throw tc), none) ∧
    Object.Get st tc none =
      .ok (Context.HandleScriptException st (Context.Throw tc), none) ∧
    Object.Set st tc none =
      .ok (Context.HandleScriptException st (Context.Throw tc), ()) ∧
    Object.Keys st tc none =
      .ok (Context.HandleScriptException st (Context.Throw tc), []) ∧
    Object.ContainsKey st tc none =
      .ok (Context.HandleScriptException st (Context.Throw tc), false) ∧
    Object.Equals st tc none =
      .ok (Context.HandleScriptException st (Context.Throw tc), false) ∧
    Object.CallMethod st tc none mres =
      .ok (Context.HandleScriptException st (Context.Throw tc), none) ∧
    Object.CallMethod st tc (some mv) none =
      .ok (Context.HandleScriptException st (Context.Throw tc), none) ∧
    Object.InstanceOf st tc none =
      .ok (Context.HandleScriptException st (Context.Throw tc), none) ∧
    Function.Call st tc none =
      .ok (Context.HandleScriptException st (Context.Throw tc), none) ∧
    Function.Construct st tc none =
      .ok (Context.HandleScriptException st (Context.Throw tc), none) ∧
    Function.Equals st tc none =
      .ok (Context.HandleScriptException st (Context.Throw tc), false) ∧
    Array.Get st tc none =
      .ok (Context.HandleScriptException st (Context.Throw tc), none) ∧
    Array.Set st tc none =
      .ok (Context.HandleScriptException st (Context.Throw tc), ()) ∧
    Array.Equals st tc none =
      .ok (Context.HandleScriptException st (Context.Throw tc), false) :=
  ⟨rfl, rfl, rfl, rfl, rfl, rfl, rfl, rfl, rfl, rfl, rfl, rfl, rfl, rfl, rfl, rfl⟩
